import Mathlib

/-!
Verification of the voice-agent turn orchestration engine (src/main.py):
the utterance finalizer, the two tool executors, the tool-augmented agent
loop of process_agent_turn, the speech output sink handle_tts, and the
per-session processing lock that sequences turns.

Collaborators (the language model, the SMTP server, the DuckDuckGo search
backend, the ElevenLabs synthesis endpoint) are modelled as oracles: pure
values or functions describing the outcome the collaborator produces, so
the embedded functions are total and executable. A Python exception that
escapes a block is an Except.error; a try/except is an explicit match on
that Except.
-/

namespace VoiceAgent

/-- Python truthiness of an optional string (the shape os.getenv returns):
None and the empty string are falsy, every other string truthy. -/
def truthy : Option String → Bool
  | none => false
  | some s => s != ""

/-! ## Utterance finalizer (on_message, src/main.py:251-258) -/

/-- A transcript event as consumed by on_message: the list of transcripts in
result.channel.alternatives, and the result.is_final flag. -/
structure TranscriptEvent where
  alternatives : List String
  is_final : Bool
deriving DecidableEq

/-- One step of on_message (src/main.py:251-258): when the alternatives list
is non-empty, take alternatives[0].transcript as the sentence and dispatch a
turn for it exactly when the sentence is truthy (non-empty, no trimming) and
the event is final. Returns the dispatched utterance, if any. -/
def onMessage (r : TranscriptEvent) : Option String :=
  match r.alternatives with
  | [] => none
  | sentence :: _ =>
    if sentence != "" && r.is_final then some sentence else none

/-- The utterance finalizer over a finite prefix of the transcript-event
stream: the utterances dispatched to process_agent_turn, in event order. -/
def finalize (events : List TranscriptEvent) : List String :=
  events.filterMap onMessage

/-- Whitespace-trimming of a string (Python str.strip on whitespace),
written over the character list so that it evaluates by reduction. -/
def pyStrip (s : String) : String :=
  String.mk
    (((s.toList.dropWhile Char.isWhitespace).reverse.dropWhile
      Char.isWhitespace).reverse)

/-- The finalizer as the spec words it (claim C3): dispatch exactly the final
events whose text is non-empty after trimming, in order. -/
def finalizeSpecTrimmed (events : List TranscriptEvent) : List String :=
  events.filterMap fun r =>
    match r.alternatives with
    | [] => none
    | sentence :: _ =>
      if pyStrip sentence != "" && r.is_final then some sentence else none

/-- The finalizer as amended: dispatch exactly the final events whose (first
alternative) text is non-empty, with no trimming, in order. -/
def finalizeAmended (events : List TranscriptEvent) : List String :=
  events.filterMap fun r =>
    match r.alternatives with
    | [] => none
    | sentence :: _ =>
      if r.is_final && sentence != "" then some sentence else none

/-! ## Tool executors (send_email, web_search; src/main.py:64-113) -/

/-- Log records emitted by the embedded functions. -/
inductive Effect
  | logWarning (msg : String)
  | logInfo (msg : String)
  | logError (msg : String)
deriving DecidableEq

/-- Oracle for the SMTP interaction inside send_email's try-block
(src/main.py:72-92): either the whole connect/starttls/login/send sequence
succeeds, or server.login raises SMTPAuthenticationError carrying an
smtp_code and a printed form, or some other exception with a printed form is
raised anywhere in the try-block. -/
inductive SmtpOutcome
  | sendOk
  | authFail (smtpCode : Nat) (estr : String)
  | otherExn (estr : String)
deriving DecidableEq

/-- The 535 error message of send_email (src/main.py:85-88). -/
def auth535Msg : String :=
  "Authentication failed (535). If you are using Gmail, you MUST use an 'App Password', not your regular account password."

/-- send_email up to and including its try-block (src/main.py:64-92), with
the exception that escapes the try-block made explicit as Except.error.
The guard on the credentials (lines 68-70) returns before the try-block;
an SMTPAuthenticationError with smtp_code 535 is answered inside the inner
handler (lines 82-90); any other authentication error is re-raised
(line 91). The first component collects the log records emitted. -/
def sendEmailTry (sender password : Option String) (smtp : SmtpOutcome)
    (recipient _subject _body : String) : List Effect × Except String String :=
  if !truthy sender || !truthy password then
    ([Effect.logWarning "Email credentials not configured."],
      Except.ok "Error: Email credentials not configured on server.")
  else
    match smtp with
    | SmtpOutcome.sendOk =>
      ([Effect.logInfo ("Email sent to " ++ recipient)],
        Except.ok ("Successfully sent email to " ++ recipient ++ "."))
    | SmtpOutcome.authFail code estr =>
      if code = 535 then
        ([Effect.logError auth535Msg], Except.ok ("Error: " ++ auth535Msg))
      else
        ([], Except.error estr)
    | SmtpOutcome.otherExn estr => ([], Except.error estr)

/-- send_email (src/main.py:64-98): the outer try/except Exception wrapper
around sendEmailTry. Every exception escaping the try-block is caught and
converted to the string result "Failed to send email: ..." (lines 96-98),
so the executor never raises: its result type is a plain pair. -/
def send_email (sender password : Option String) (smtp : SmtpOutcome)
    (recipient subject body : String) : String × List Effect :=
  match sendEmailTry sender password smtp recipient subject body with
  | (effs, Except.ok r) => (r, effs)
  | (effs, Except.error e) =>
    ("Failed to send email: " ++ e,
      effs ++ [Effect.logError ("Failed to send email: " ++ e)])

/-- One DuckDuckGo search result as the dict web_search reads: title and body
retrieved with r.get, which yields None when the key is missing. -/
structure SearchResult where
  title : Option String
  body : Option String
deriving DecidableEq

/-- Python str() of an optional string: None prints as "None". -/
def pyStr : Option String → String
  | none => "None"
  | some s => s

/-- Oracle for the DDGS().text call in web_search (src/main.py:106-107):
the (at most three) results it returns, or an exception with a printed
form raised anywhere in the try-block. -/
inductive SearchOutcome
  | results (rs : List SearchResult)
  | exn (estr : String)
deriving DecidableEq

/-- web_search (src/main.py:101-113): an empty result list and any exception
are both converted to fixed strings, so the executor never raises. -/
def web_search (_query : String) (outc : SearchOutcome) : String × List Effect :=
  match outc with
  | SearchOutcome.results [] => ("No results found for the query.", [])
  | SearchOutcome.results rs =>
    (String.intercalate "\n"
      (rs.map fun r => pyStr r.title ++ ": " ++ pyStr r.body), [])
  | SearchOutcome.exn e =>
    ("Search failed due to connectivity issues. Please try again later.",
      [Effect.logError ("Search error: " ++ e)])

/-! ## Agent loop (process_agent_turn, src/main.py:202-249) -/

/-- The arguments of a tool call, parsed into the registered tool's schema
(the other constructor stands for an argument object of any other shape). -/
inductive ToolArgs
  | email (recipient subject body : String)
  | search (query : String)
  | other
deriving DecidableEq

/-- A tool call as the loop reads it from the model response:
tool_call["id"], tool_call["name"], tool_call["args"]. -/
structure ToolCall where
  id : String
  name : String
  args : ToolArgs
deriving DecidableEq

/-- A model response: its text content and its list of tool calls. -/
structure ModelResponse where
  content : String
  tool_calls : List ToolCall
deriving DecidableEq

/-- A conversation-history entry: SystemMessage, HumanMessage, the model's
response message, or a ToolMessage keyed to a tool-call id. -/
inductive Msg
  | system (content : String)
  | human (content : String)
  | ai (r : ModelResponse)
  | toolMsg (content : String) (tool_call_id : String)
deriving DecidableEq

/-- The per-turn environment: the email credentials and the collaborator
outcomes the tool executors consult during the turn. -/
structure ToolEnv where
  sender : Option String
  password : Option String
  smtp : SmtpOutcome
  search : SearchOutcome

/-- The printed form standing for the pydantic validation error that
langchain's tool .invoke raises when a registered tool's arguments do not
match its declared input schema. The exact library text is not modelled;
no theorem depends on this string's content, only on its being the raised
exception's printed form. -/
def validationMsg (name : String) : String :=
  "validation error for tool " ++ name

/-- Tool invocation inside the loop (src/main.py:234-239). The observation
variable starts as the empty string and is overwritten only for the two
registered tool names, so a call whose name matches no registered tool
leaves the empty string and raises nothing. For a registered name, .invoke
first validates the arguments against that tool's input schema and raises a
validation error on mismatch (Except.error here; in the source it
propagates to the turn-level except at src/main.py:248); with matching
arguments it runs the executor, whose result is always a string. -/
def invokeTool (env : ToolEnv) (name : String) (args : ToolArgs) :
    Except String String :=
  if name = "send_email" then
    match args with
    | ToolArgs.email r s b =>
      Except.ok (send_email env.sender env.password env.smtp r s b).fst
    | _ => Except.error (validationMsg "send_email")
  else if name = "web_search" then
    match args with
    | ToolArgs.search q => Except.ok (web_search q env.search).fst
    | _ => Except.error (validationMsg "web_search")
  else Except.ok ""

/-- Whether a tool call's invocation returns without raising (its arguments
pass the tool's schema validation, or its name is unregistered). -/
def invokeOk (env : ToolEnv) (c : ToolCall) : Bool :=
  match invokeTool env c.name c.args with
  | Except.ok _ => true
  | Except.error _ => false

/-- The observation recorded for a call whose invocation does not raise.
This is a statement-side abbreviation: it is only ever used under an
invokeOk hypothesis (the error branch below is a placeholder the program
never records and no theorem relies on). -/
def obsOf (env : ToolEnv) (c : ToolCall) : String :=
  match invokeTool env c.name c.args with
  | Except.ok s => s
  | Except.error _ => ""

/-- The latency-hiding TTS acknowledgment emitted before executing a tool
call (src/main.py:224-232); no acknowledgment for other names. -/
def ackChunk (name : String) : List String :=
  if name = "web_search" then ["One moment, I'm looking that up for you."]
  else if name = "send_email" then ["Certainly, I'll send that email for you now."]
  else []

/-- How a turn's while-loop ended: the break on a response without tool
calls, the turn-level except catching an exception raised by the model
invocation, or (a modelling artifact) the iteration fuel running out before
either — the source loop itself has no bound. -/
inductive TurnOutcome
  | done (final : ModelResponse)
  | aborted (e : String)
  | fuelOut
deriving DecidableEq

/-- The result of running the loop: the conversation history, the texts
handed to handle_tts in emission order, the number of model invocations
made, and how the loop ended. -/
structure TurnResult where
  hist : List Msg
  chunks : List String
  calls : Nat
  outcome : TurnOutcome
deriving DecidableEq

/-- Result of processing one tool-call batch (the for loop at
src/main.py:220-245): the acknowledgment chunks spoken (each spoken before
its call is invoked), the ToolMessages appended, and the exception, if any,
that aborted the batch. -/
structure BatchResult where
  chunks : List String
  msgs : List Msg
  err : Option String
deriving DecidableEq

/-- The for loop over a response's tool calls (src/main.py:220-245): each
call's acknowledgment is spoken, then the call is invoked; a call whose
invocation raises ends the batch there -- its acknowledgment was spoken but
no ToolMessage is appended for it and the remaining calls are not
processed; otherwise one ToolMessage keyed to the call id is appended. -/
def runBatch (env : ToolEnv) : List ToolCall → BatchResult
  | [] => ⟨[], [], none⟩
  | c :: cs =>
    match invokeTool env c.name c.args with
    | Except.error e => ⟨ackChunk c.name, [], some e⟩
    | Except.ok obs =>
      let rest := runBatch env cs
      ⟨ackChunk c.name ++ rest.chunks,
        Msg.toolMsg obs c.id :: rest.msgs, rest.err⟩

/-- The while-loop of process_agent_turn (src/main.py:209-247), with the
model collaborator as an oracle from the history to a response or a raised
exception, and an explicit iteration fuel standing for the number of
remaining loop iterations (the source has no bound; fuelOut marks runs the
fuel cut short). Each iteration invokes the model, appends its response,
breaks on a response without tool calls (speaking its non-empty content),
and otherwise processes the tool-call batch: a raising invocation (a
schema-invalid call) propagates to the turn-level except, aborting the turn
with the batch's partial tool results in the history; a batch that
completes loops back for another model invocation. -/
def agentLoopAux (env : ToolEnv)
    (llm : List Msg → Except String ModelResponse) :
    Nat → List Msg → TurnResult
  | 0, hist => ⟨hist, [], 0, TurnOutcome.fuelOut⟩
  | fuel + 1, hist =>
    match llm hist with
    | Except.error e => ⟨hist, [], 1, TurnOutcome.aborted e⟩
    | Except.ok resp =>
      if resp.tool_calls.isEmpty then
        ⟨hist ++ [Msg.ai resp],
          if resp.content != "" then [resp.content] else [],
          1, TurnOutcome.done resp⟩
      else
        let b := runBatch env resp.tool_calls
        match b.err with
        | some e =>
          ⟨(hist ++ [Msg.ai resp]) ++ b.msgs, b.chunks, 1,
            TurnOutcome.aborted e⟩
        | none =>
          let res := agentLoopAux env llm fuel
            ((hist ++ [Msg.ai resp]) ++ b.msgs)
          ⟨res.hist, b.chunks ++ res.chunks, res.calls + 1, res.outcome⟩

/-- process_agent_turn (src/main.py:202-249): once the session lock is held,
append the user utterance as a HumanMessage and run the loop. The turn-level
try/except is part of the loop embedding (TurnOutcome.aborted). -/
def processAgentTurn (env : ToolEnv)
    (llm : List Msg → Except String ModelResponse)
    (fuel : Nat) (hist : List Msg) (userText : String) : TurnResult :=
  agentLoopAux env llm fuel (hist ++ [Msg.human userText])

/-- Whether a tool-call batch is answered by exactly one tool-result message
per call, keyed to the call identifiers, in batch order. -/
def batchKeyed : List ToolCall → List Msg → Bool
  | [], [] => true
  | c :: cs, Msg.toolMsg _ cid :: ms => cid == c.id && batchKeyed cs ms
  | _, _ => false

/-- Shape of the message block a single turn appends after its HumanMessage:
an alternation of model responses and, for each tool-call batch, exactly its
keyed tool-results, with nothing after a response that carries no tool
calls. -/
def turnShape : List Msg → Bool
  | [] => true
  | Msg.ai r :: rest =>
    if r.tool_calls.isEmpty then rest.isEmpty
    else
      batchKeyed r.tool_calls (rest.take r.tool_calls.length) &&
        turnShape (rest.drop r.tool_calls.length)
  | _ => false
termination_by l => l.length
decreasing_by simp [List.length_drop]; omega

/-! ## Speech output sink (handle_tts, src/main.py:173-200) -/

/-- The standard base64 alphabet, indexed. -/
def b64Char (n : Nat) : Char :=
  ("ABCDEFGHIJKLMNOPQRSTUVWXYZabcdefghijklmnopqrstuvwxyz0123456789+/".toList).getD n 'A'

/-- base64.b64encode over the response's byte list (standard alphabet with
padding). -/
def b64encode : List Nat → String
  | [] => ""
  | [a] => String.mk [b64Char (a / 4), b64Char (a % 4 * 16)] ++ "=="
  | [a, b] =>
    String.mk [b64Char (a / 4), b64Char (a % 4 * 16 + b / 16),
      b64Char (b % 16 * 4)] ++ "="
  | a :: b :: c :: rest =>
    String.mk [b64Char (a / 4), b64Char (a % 4 * 16 + b / 16),
      b64Char (b % 16 * 4 + c / 64), b64Char (c % 64)] ++ b64encode rest

/-- An outbound transport frame as handle_tts sends it (src/main.py:191-196):
the JSON object with keys event, streamSid and media.payload, the payload
being the base64 encoding of the synthesized audio bytes. -/
structure OutFrame where
  event : String
  streamSid : String
  payload : String
deriving DecidableEq

/-- Outcome of the synthesis HTTP POST in handle_tts (src/main.py:187-188):
a response carrying a status code and body bytes, or a raised exception with
a printed form. -/
inductive TtsOutcome
  | response (status : Nat) (content : List Nat)
  | exn (estr : String)
deriving DecidableEq

/-- handle_tts (src/main.py:173-200): return immediately on empty text; on a
200 response send exactly one media frame whose payload is the base64 of the
response body; on any other status, or on any exception, log and send
nothing. The try/except makes the function total: it never raises. -/
def handle_tts (text : String) (sid : String) (outc : TtsOutcome) :
    List OutFrame × List Effect :=
  if text = "" then ([], [])
  else
    match outc with
    | TtsOutcome.response status content =>
      if status = 200 then
        ([{ event := "media", streamSid := sid,
            payload := b64encode content }],
          [Effect.logInfo ("TTS: " ++ text)])
      else
        ([], [Effect.logInfo ("TTS: " ++ text),
          Effect.logError ("TTS Error: " ++ toString status)])
    | TtsOutcome.exn e =>
      ([], [Effect.logInfo ("TTS: " ++ text),
        Effect.logError ("TTS Exception: " ++ e)])

/-- Sending a sequence of spoken-text chunks through handle_tts in order:
the frames that reach the websocket. -/
def speakAll (sid : String) : List (String × TtsOutcome) → List OutFrame
  | [] => []
  | (t, outc) :: rest => (handle_tts t sid outc).fst ++ speakAll sid rest

/-! ## Turn sequencing lock (src/main.py:166-168, 202-204) -/

/-- What a turn does while holding the per-session processing lock: mutate
the shared conversation history, await a send of synthesized audio on the
websocket (handle_tts is awaited inside the locked section), or log the
turn-level failure. -/
inductive BodyOp
  | appendMsg (m : Msg)
  | sendAudio (frame : OutFrame)
  | logTurnError (e : String)
deriving DecidableEq

/-- Observable events of the turn sequencer: a turn's coroutine acquiring
the session's asyncio.Lock, one step of its locked body, and its release of
the lock. -/
inductive Event
  | acquire (t : Nat)
  | body (t : Nat) (op : BodyOp)
  | release (t : Nat)
deriving DecidableEq

/-- The sequencer state: which turn, if any, currently holds the session's
asyncio.Lock, and the trace of events so far. -/
structure SeqState where
  lockHolder : Option Nat
  trace : List Event

/-- Small-step semantics of the per-session asyncio.Lock as
process_agent_turn uses it (async with processing_lock, src/main.py:204): a
turn acquires only while the lock is free, body steps run only while the
turn holds the lock, and only the holder releases -- which it always does,
because the body's exceptions are caught by the try/except nested inside
the async-with block. -/
inductive SeqStep : SeqState → SeqState → Prop
  | acquire (s : SeqState) (t : Nat) (h : s.lockHolder = none) :
      SeqStep s ⟨some t, s.trace ++ [Event.acquire t]⟩
  | body (s : SeqState) (t : Nat) (op : BodyOp) (h : s.lockHolder = some t) :
      SeqStep s ⟨some t, s.trace ++ [Event.body t op]⟩
  | release (s : SeqState) (t : Nat) (h : s.lockHolder = some t) :
      SeqStep s ⟨none, s.trace ++ [Event.release t]⟩

/-- Sequencer states reachable from a fresh session (lock free, no events,
as handle_media_stream creates it at src/main.py:168). -/
inductive SeqReach : SeqState → Prop
  | init : SeqReach ⟨none, []⟩
  | step (s s2 : SeqState) (hs : SeqReach s) (hstep : SeqStep s s2) :
      SeqReach s2

/-- Replaying one event over a lock holder; none when the event violates
the lock discipline. -/
def scanStep (h : Option Nat) : Event → Option (Option Nat)
  | Event.acquire t => match h with | none => some (some t) | some _ => none
  | Event.body t _ => if h = some t then some h else none
  | Event.release t => if h = some t then some none else none

/-- Replaying a trace from a lock holder, tracking the holder; none when
some event violates the lock discipline. -/
def scanTrace : Option Nat → List Event → Option (Option Nat)
  | h, [] => some h
  | h, e :: rest =>
    match scanStep h e with
    | none => none
    | some h2 => scanTrace h2 rest

/-! ## Session-level sequential processing -/

/-- One finalized utterance together with the model collaborator behavior
and the iteration fuel for its turn. -/
structure TurnInput where
  llm : List Msg → Except String ModelResponse
  fuel : Nat
  text : String

/-- The session's sequential processing of finalized utterances: the
per-session lock admits the turns one at a time in submission order, each
turn running process_agent_turn on the history the previous turn left
(including the partial history an aborted turn left). Returns the final
history and every turn's outcome. -/
def sessionRun (env : ToolEnv) :
    List Msg → List TurnInput → List Msg × List TurnOutcome
  | hist, [] => (hist, [])
  | hist, tin :: rest =>
    match sessionRun env
        (processAgentTurn env tin.llm tin.fuel hist tin.text).hist rest with
    | (h, outs) =>
      (h, (processAgentTurn env tin.llm tin.fuel hist tin.text).outcome :: outs)

/-- A model collaborator whose invocation raises. -/
def failingLLM (e : String) : List Msg → Except String ModelResponse :=
  fun _ => Except.error e

/-- The log record the turn-level except of process_agent_turn emits for a
caught exception (src/main.py:248-249). -/
def turnLog : TurnOutcome → List Effect
  | TurnOutcome.aborted e => [Effect.logError ("Agent Logic Error: " ++ e)]
  | _ => []

/-! ## Concrete collaborator instances used in scenario runs -/

/-- A concrete tool environment: configured credentials, an SMTP server that
accepts the send, a search backend that times out. -/
def envC : ToolEnv :=
  ⟨some "support@example.com", some "pw", SmtpOutcome.sendOk,
    SearchOutcome.exn "timeout"⟩

/-- A model that always answers with plain text and no tool calls. -/
def plainLLM : List Msg → Except String ModelResponse :=
  fun _ => Except.ok ⟨"Hello, how can I help you today?", []⟩

/-- First model response of the C5 scenario: one send_email tool call. -/
def scenarioResp1 : ModelResponse :=
  ⟨"", [⟨"call_1", "send_email", ToolArgs.email "bob@example.com" "hi" "hi"⟩]⟩

/-- Second model response of the C5 scenario: the plain closing sentence. -/
def scenarioResp2 : ModelResponse := ⟨"Done, I've sent that email.", []⟩

/-- The C5 scenario model: requests the email send on the first invocation
of the turn (the last history entry is not yet a tool result) and closes
with plain text once the tool result is in the history. -/
def scenarioLLM (h : List Msg) : Except String ModelResponse :=
  match h.getLast? with
  | some (Msg.toolMsg _ _) => Except.ok scenarioResp2
  | _ => Except.ok scenarioResp1

/-- A model response carrying one web_search tool call. -/
def respC4 : ModelResponse :=
  ⟨"", [⟨"call_1", "web_search", ToolArgs.search "hours"⟩]⟩

/-- A model that requests a web search, then summarizes. -/
def llmC4 (h : List Msg) : Except String ModelResponse :=
  match h.getLast? with
  | some (Msg.toolMsg _ _) => Except.ok ⟨"Here is what I found.", []⟩
  | _ => Except.ok respC4

/-- A model response carrying one tool call whose name matches no
registered tool. -/
def respUnknown : ModelResponse :=
  ⟨"", [⟨"call_1", "make_coffee", ToolArgs.other⟩]⟩

/-- A model that requests an unregistered tool, then apologizes. -/
def unknownToolLLM (h : List Msg) : Except String ModelResponse :=
  match h.getLast? with
  | some (Msg.toolMsg _ _) => Except.ok ⟨"Sorry, I cannot do that.", []⟩
  | _ => Except.ok respUnknown

/-- A model response whose single send_email tool call carries arguments
that do not match the tool's input schema. -/
def respInvalid : ModelResponse :=
  ⟨"", [⟨"call_1", "send_email", ToolArgs.other⟩]⟩

/-- A model that requests a schema-invalid send_email call. -/
def invalidLLM : List Msg → Except String ModelResponse :=
  fun _ => Except.ok respInvalid

/-- A model response whose single web_search tool call carries arguments
that do not match the tool's input schema. -/
def respInvalidWS : ModelResponse :=
  ⟨"", [⟨"call_9", "web_search", ToolArgs.email "a" "b" "c"⟩]⟩

/-- A model that requests a schema-invalid web_search call. -/
def invalidWSLLM : List Msg → Except String ModelResponse :=
  fun _ => Except.ok respInvalidWS

/-- A model response carrying a valid web_search call followed by a call to
an unregistered tool, in one batch. -/
def respMixed : ModelResponse :=
  ⟨"", [⟨"c1", "web_search", ToolArgs.search "x"⟩,
    ⟨"c2", "make_coffee", ToolArgs.other⟩]⟩

/-- A model that requests the mixed batch, then closes with plain text. -/
def mixedLLM (h : List Msg) : Except String ModelResponse :=
  match h.getLast? with
  | some (Msg.toolMsg _ _) => Except.ok ⟨"All set.", []⟩
  | _ => Except.ok respMixed

/-- A model response with one web_search tool call, requested forever. -/
def respLoop : ModelResponse :=
  ⟨"", [⟨"call_loop", "web_search", ToolArgs.search "q"⟩]⟩

/-- A model that returns a web_search tool call on every invocation. -/
def alwaysToolLLM : List Msg → Except String ModelResponse :=
  fun _ => Except.ok respLoop

/-- Termination of a turn's while-loop: some finite number of iterations
reaches the break on a response without tool calls. -/
def TurnTerminates (env : ToolEnv)
    (llm : List Msg → Except String ModelResponse) (hist : List Msg) : Prop :=
  ∃ fuel resp,
    (agentLoopAux env llm fuel hist).outcome = TurnOutcome.done resp

/-- A concrete sequencer trace: turn 0 acquires, appends, releases; then
turn 1 acquires and appends. -/
def traceW : List Event :=
  [Event.acquire 0, Event.body 0 (BodyOp.appendMsg (Msg.human "hi")),
    Event.release 0, Event.acquire 1,
    Event.body 1 (BodyOp.appendMsg (Msg.human "again"))]

/-- The sequencer state reached along traceW. -/
def stateW : SeqState := ⟨some 1, traceW⟩

end VoiceAgent

namespace VoiceAgent

/-! ## Claim C3: the finalizer and trimming -/

/-- C3 counterexample: the claim states that a final transcript that is
whitespace-only (empty after trimming) is discarded. The code checks Python
truthiness of the untrimmed sentence (src/main.py:255), so the final
transcript consisting of one space is dispatched, although its trim is
empty: the claim as stated is false at this input. -/
theorem c3_counterexample :
    finalize [{ alternatives := [" "], is_final := true }] = [" "] ∧
    pyStrip " " = "" ∧
    finalizeSpecTrimmed [{ alternatives := [" "], is_final := true }] = [] := by
  refine ⟨rfl, by decide, by decide⟩

/-- C3 amended: for every sequence of transcript events, the finalizer
dispatches a turn exactly for those events whose is_final flag is true and
whose text is non-empty WITHOUT trimming (a whitespace-only final transcript
is dispatched), in the original event order; all other events are discarded
silently. -/
theorem c3_finalizer_amended (events : List TranscriptEvent) :
    finalize events = finalizeAmended events := by
  unfold finalize finalizeAmended
  congr 1
  funext r
  unfold onMessage
  cases r.alternatives with
  | nil => rfl
  | cons s rest => simp [Bool.and_comm]

/-! ## Claim C10: send_email with unconfigured credentials -/

/-- C10: when EMAIL_SENDER or EMAIL_PASSWORD is unset, send_email logs the
warning and returns the fixed error string (src/main.py:68-70), and the
result does not depend on the SMTP oracle: no SMTP connection or send is
attempted. -/
theorem c10_send_email_unconfigured
    (sender password : Option String) (smtp smtp2 : SmtpOutcome)
    (recipient subject body : String)
    (h : sender = none ∨ password = none) :
    send_email sender password smtp recipient subject body =
      ("Error: Email credentials not configured on server.",
        [Effect.logWarning "Email credentials not configured."]) ∧
    send_email sender password smtp recipient subject body =
      send_email sender password smtp2 recipient subject body := by
  have hguard : (!truthy sender || !truthy password) = true := by
    rcases h with h | h <;> simp [h, truthy]
  constructor
  · simp only [send_email, sendEmailTry, hguard, if_true]
  · simp only [send_email, sendEmailTry, hguard, if_true]

/-! ## Loop helper lemmas (shared) -/

/-- A batch's own keyed tool-result messages satisfy batchKeyed. -/
theorem batchKeyed_map (f : ToolCall → String) :
    ∀ cs : List ToolCall,
      batchKeyed cs (cs.map fun c => Msg.toolMsg (f c) c.id) = true
  | [] => rfl
  | c :: cs => by simp [batchKeyed, batchKeyed_map f cs]

/-- A batch whose calls all pass validation: the acknowledgments in call
order, exactly one keyed ToolMessage per call, and no exception. -/
theorem runBatch_ok (env : ToolEnv) :
    ∀ calls : List ToolCall,
      (∀ c ∈ calls, invokeOk env c = true) →
      runBatch env calls =
        ⟨calls.flatMap (fun c => ackChunk c.name),
          calls.map (fun c => Msg.toolMsg (obsOf env c) c.id), none⟩ := by
  intro calls
  induction calls with
  | nil => intro _; rfl
  | cons c cs ih =>
    intro hok
    have hc := hok c (by simp)
    cases hinv : invokeTool env c.name c.args with
    | error e =>
      rw [invokeOk, hinv] at hc
      exact Bool.noConfusion hc
    | ok obs =>
      have hrest := ih (fun d hd => hok d (by simp [hd]))
      simp [runBatch, hinv, hrest, obsOf]

/-- runBatch over a batch whose prefix all passes validation: the prefix
contributes its acknowledgments and keyed results, the rest decides the
exception. -/
theorem runBatch_append_ok (env : ToolEnv) (rest : List ToolCall) :
    ∀ pre : List ToolCall,
      (∀ c ∈ pre, invokeOk env c = true) →
      runBatch env (pre ++ rest) =
        ⟨pre.flatMap (fun c => ackChunk c.name) ++
            (runBatch env rest).chunks,
          pre.map (fun c => Msg.toolMsg (obsOf env c) c.id) ++
            (runBatch env rest).msgs,
          (runBatch env rest).err⟩ := by
  intro pre
  induction pre with
  | nil => intro _; simp
  | cons c cs ih =>
    intro hok
    have hc := hok c (by simp)
    cases hinv : invokeTool env c.name c.args with
    | error e =>
      rw [invokeOk, hinv] at hc
      exact Bool.noConfusion hc
    | ok obs =>
      have hrest := ih (fun d hd => hok d (by simp [hd]))
      simp [runBatch, hinv, hrest, obsOf]

/-- Unfolding the loop one iteration at a response whose tool-call batch
completes without a raising invocation. -/
theorem agentLoopAux_toolStep_ok (env : ToolEnv)
    (llm : List Msg → Except String ModelResponse) (fuel : Nat)
    (hist : List Msg) (resp : ModelResponse)
    (hr : llm hist = Except.ok resp)
    (hne : resp.tool_calls.isEmpty = false)
    (herr : (runBatch env resp.tool_calls).err = none) :
    agentLoopAux env llm (fuel + 1) hist =
      ⟨(agentLoopAux env llm fuel ((hist ++ [Msg.ai resp]) ++
          (runBatch env resp.tool_calls).msgs)).hist,
        (runBatch env resp.tool_calls).chunks ++
          (agentLoopAux env llm fuel ((hist ++ [Msg.ai resp]) ++
            (runBatch env resp.tool_calls).msgs)).chunks,
        (agentLoopAux env llm fuel ((hist ++ [Msg.ai resp]) ++
          (runBatch env resp.tool_calls).msgs)).calls + 1,
        (agentLoopAux env llm fuel ((hist ++ [Msg.ai resp]) ++
          (runBatch env resp.tool_calls).msgs)).outcome⟩ := by
  simp [agentLoopAux, hr, hne, herr]

/-- Unfolding the loop one iteration at a response whose tool-call batch is
aborted by a raising invocation: the turn-level except catches it, with the
batch's partial tool results in the history. -/
theorem agentLoopAux_toolStep_err (env : ToolEnv)
    (llm : List Msg → Except String ModelResponse) (fuel : Nat)
    (hist : List Msg) (resp : ModelResponse) (e : String)
    (hr : llm hist = Except.ok resp)
    (hne : resp.tool_calls.isEmpty = false)
    (herr : (runBatch env resp.tool_calls).err = some e) :
    agentLoopAux env llm (fuel + 1) hist =
      ⟨(hist ++ [Msg.ai resp]) ++ (runBatch env resp.tool_calls).msgs,
        (runBatch env resp.tool_calls).chunks, 1,
        TurnOutcome.aborted e⟩ := by
  simp [agentLoopAux, hr, hne, herr]

/-- Every run of the loop makes at least one model invocation when it has
fuel for one iteration. -/
theorem agentLoopAux_calls_pos (env : ToolEnv)
    (llm : List Msg → Except String ModelResponse) (fuel : Nat)
    (hist : List Msg) :
    1 ≤ (agentLoopAux env llm (fuel + 1) hist).calls := by
  cases hr : llm hist with
  | error e => simp [agentLoopAux, hr]
  | ok resp =>
    by_cases hne : resp.tool_calls.isEmpty
    · simp [agentLoopAux, hr, hne]
    · cases herr : (runBatch env resp.tool_calls).err with
      | none => simp [agentLoopAux, hr, hne, herr]
      | some e => simp [agentLoopAux, hr, hne, herr]

/-- Every run of the loop only ever appends to its input history. -/
theorem agentLoopAux_hist_extend (env : ToolEnv)
    (llm : List Msg → Except String ModelResponse) :
    ∀ (fuel : Nat) (hist : List Msg), ∃ delta,
      (agentLoopAux env llm fuel hist).hist = hist ++ delta := by
  intro fuel
  induction fuel with
  | zero => exact fun hist => ⟨[], by simp [agentLoopAux]⟩
  | succ fuel ih =>
    intro hist
    cases hr : llm hist with
    | error e => exact ⟨[], by simp [agentLoopAux, hr]⟩
    | ok resp =>
      by_cases hne : resp.tool_calls.isEmpty
      · exact ⟨[Msg.ai resp], by simp [agentLoopAux, hr, hne]⟩
      · have hne2 : resp.tool_calls.isEmpty = false := eq_false_of_ne_true hne
        cases herr : (runBatch env resp.tool_calls).err with
        | some e =>
          refine ⟨Msg.ai resp :: (runBatch env resp.tool_calls).msgs, ?_⟩
          rw [agentLoopAux_toolStep_err env llm fuel hist resp e hr hne2 herr]
          simp
        | none =>
          obtain ⟨d, hd⟩ := ih ((hist ++ [Msg.ai resp]) ++
            (runBatch env resp.tool_calls).msgs)
          refine ⟨Msg.ai resp ::
            ((runBatch env resp.tool_calls).msgs ++ d), ?_⟩
          rw [agentLoopAux_toolStep_ok env llm fuel hist resp hr hne2 herr]
          rw [hd]
          simp

/-- After a response with tool calls, the history continues with the
response and the batch's tool results (partial when the batch aborted),
whatever happens afterwards. -/
theorem agentLoopAux_toolStep_hist (env : ToolEnv)
    (llm : List Msg → Except String ModelResponse) (fuel : Nat)
    (hist : List Msg) (resp : ModelResponse)
    (hr : llm hist = Except.ok resp)
    (hne : resp.tool_calls.isEmpty = false) :
    ∃ delta, (agentLoopAux env llm (fuel + 1) hist).hist
      = ((hist ++ [Msg.ai resp]) ++ (runBatch env resp.tool_calls).msgs)
          ++ delta := by
  cases herr : (runBatch env resp.tool_calls).err with
  | some e =>
    refine ⟨[], ?_⟩
    rw [agentLoopAux_toolStep_err env llm fuel hist resp e hr hne herr]
    simp
  | none =>
    obtain ⟨d, hd⟩ := agentLoopAux_hist_extend env llm fuel
      ((hist ++ [Msg.ai resp]) ++ (runBatch env resp.tool_calls).msgs)
    refine ⟨d, ?_⟩
    rw [agentLoopAux_toolStep_ok env llm fuel hist resp hr hne herr]
    exact hd

/-- When every tool call the model ever requests passes validation, every
run of the loop appends to its input history a block of the fully answered,
well-keyed turn shape. -/
theorem agentLoopAux_shape (env : ToolEnv)
    (llm : List Msg → Except String ModelResponse)
    (hwf : ∀ h resp, llm h = Except.ok resp →
      ∀ c ∈ resp.tool_calls, invokeOk env c = true) :
    ∀ (fuel : Nat) (hist : List Msg), ∃ delta,
      (agentLoopAux env llm fuel hist).hist = hist ++ delta ∧
        turnShape delta = true := by
  intro fuel
  induction fuel with
  | zero => exact fun hist => ⟨[], by simp [agentLoopAux], by simp [turnShape]⟩
  | succ fuel ih =>
    intro hist
    cases hr : llm hist with
    | error e => exact ⟨[], by simp [agentLoopAux, hr], by simp [turnShape]⟩
    | ok resp =>
      by_cases hne : resp.tool_calls.isEmpty
      · refine ⟨[Msg.ai resp], by simp [agentLoopAux, hr, hne], ?_⟩
        simp [turnShape, hne]
      · have hne2 : resp.tool_calls.isEmpty = false := eq_false_of_ne_true hne
        have hrb := runBatch_ok env resp.tool_calls (hwf hist resp hr)
        have herr : (runBatch env resp.tool_calls).err = none := by
          rw [hrb]
        have hmsgs : (runBatch env resp.tool_calls).msgs =
            resp.tool_calls.map (fun c => Msg.toolMsg (obsOf env c) c.id) := by
          rw [hrb]
        obtain ⟨d, hd, hshape⟩ := ih ((hist ++ [Msg.ai resp]) ++
          (runBatch env resp.tool_calls).msgs)
        refine ⟨Msg.ai resp ::
          (resp.tool_calls.map (fun c =>
            Msg.toolMsg (obsOf env c) c.id) ++ d), ?_, ?_⟩
        · rw [agentLoopAux_toolStep_ok env llm fuel hist resp hr hne2 herr]
          rw [hd, hmsgs]; simp
        · have hlen : (resp.tool_calls.map (fun c =>
              Msg.toolMsg (obsOf env c) c.id)).length =
              resp.tool_calls.length := List.length_map _ _
          simp only [turnShape, hne2, if_false]
          rw [← hlen, List.take_left, List.drop_left]
          rw [batchKeyed_map, hshape]
          simp

/-! ## Claim C2: one keyed tool-result per tool call, per batch -/

/-- C2 counterexample: the claim asserts that EVERY tool-call batch the
model returns is answered by exactly one keyed tool-result per call before
the next model invocation. But when a batch contains a registered tool
whose arguments fail that tool's schema validation, .invoke raises
(src/main.py:237) and the exception propagates to the turn-level except
(src/main.py:248): here a one-call send_email batch with mismatched
arguments leaves the turn history with NO tool-result for the call and the
turn aborted instead of re-invoking the model. -/
theorem c2_counterexample :
    (processAgentTurn envC invalidLLM 2 [Msg.system "p"] "hi").hist
      = [Msg.system "p", Msg.human "hi", Msg.ai respInvalid] ∧
    (processAgentTurn envC invalidLLM 2 [Msg.system "p"] "hi").outcome
      = TurnOutcome.aborted (validationMsg "send_email") := by
  constructor <;> rfl

/-- C2 amended: provided every tool call the model requests passes its
tool's argument validation (so no invocation raises), the messages a turn
appends after its HumanMessage form an alternation in which every model
response that carries tool calls is immediately followed by exactly one
tool-result message per call of the batch, keyed to the call identifiers in
order, all before the next model response, and a response without tool
calls ends the block. A batch with a schema-invalid registered call instead
aborts the turn at that call, leaving it and the later calls of the batch
unanswered. -/
theorem c2_tool_results_keyed (env : ToolEnv)
    (llm : List Msg → Except String ModelResponse)
    (fuel : Nat) (hist : List Msg) (u : String)
    (hwf : ∀ h resp, llm h = Except.ok resp →
      ∀ c ∈ resp.tool_calls, invokeOk env c = true) :
    ∃ delta,
      (processAgentTurn env llm fuel hist u).hist =
        hist ++ Msg.human u :: delta ∧
      turnShape delta = true := by
  obtain ⟨d, hd, hs⟩ :=
    agentLoopAux_shape env llm hwf fuel (hist ++ [Msg.human u])
  exact ⟨d, by simpa [processAgentTurn] using hd, hs⟩

/-- C2 amended witness: a concrete turn with one valid web_search batch
followed by the closing response; its appended block has the keyed shape. -/
theorem c2_witness :
    ∃ delta,
      (processAgentTurn envC llmC4 2 [Msg.system "p"] "When?").hist =
        [Msg.system "p"] ++ Msg.human "When?" :: delta ∧
      turnShape delta = true := by
  refine c2_tool_results_keyed envC llmC4 2 [Msg.system "p"] "When?" ?_
  intro h resp hr c hc
  unfold llmC4 at hr
  split at hr
  · injection hr with h2
    subst h2
    simp at hc
  · injection hr with h2
    subst h2
    simp [respC4] at hc
    subst hc
    rfl

/-- The first two iterations of a turn whose first model response carries a
tool-call batch that passes validation throughout: the history begins with
the utterance, the response, and the batch's keyed tool-results, and the
model is invoked again afterwards. -/
theorem processAgentTurn_batch_prefix (env : ToolEnv)
    (llm : List Msg → Except String ModelResponse)
    (fuel : Nat) (hist : List Msg) (u : String) (resp : ModelResponse)
    (hr : llm (hist ++ [Msg.human u]) = Except.ok resp)
    (hne : resp.tool_calls ≠ [])
    (hok : ∀ c ∈ resp.tool_calls, invokeOk env c = true) :
    (processAgentTurn env llm (fuel + 2) hist u).hist.take
        (hist.length + 2 + resp.tool_calls.length)
      = (hist ++ [Msg.human u, Msg.ai resp]) ++
          resp.tool_calls.map (fun c =>
            Msg.toolMsg (obsOf env c) c.id) ∧
    2 ≤ (processAgentTurn env llm (fuel + 2) hist u).calls := by
  have hne2 : resp.tool_calls.isEmpty = false := by
    cases hcl : resp.tool_calls with
    | nil => exact absurd hcl hne
    | cons a l => rfl
  have hrb := runBatch_ok env resp.tool_calls hok
  have herr : (runBatch env resp.tool_calls).err = none := by rw [hrb]
  have hmsgs : (runBatch env resp.tool_calls).msgs =
      resp.tool_calls.map (fun c => Msg.toolMsg (obsOf env c) c.id) := by
    rw [hrb]
  have hstep := agentLoopAux_toolStep_ok env llm (fuel + 1)
    (hist ++ [Msg.human u]) resp hr hne2 herr
  obtain ⟨d, hd⟩ := agentLoopAux_hist_extend env llm (fuel + 1)
    (((hist ++ [Msg.human u]) ++ [Msg.ai resp]) ++
      (runBatch env resp.tool_calls).msgs)
  constructor
  · show (agentLoopAux env llm (fuel + 1 + 1)
        (hist ++ [Msg.human u])).hist.take
        (hist.length + 2 + resp.tool_calls.length) = _
    rw [hstep]
    show ((agentLoopAux env llm (fuel + 1) _).hist).take _ = _
    rw [hd, hmsgs]
    have hP : ((((hist ++ [Msg.human u]) ++ [Msg.ai resp]) ++
        resp.tool_calls.map (fun c =>
          Msg.toolMsg (obsOf env c) c.id))).length
        = hist.length + 2 + resp.tool_calls.length := by
      simp [List.length_append, List.length_map]
      omega
    rw [List.take_left' hP]
    simp
  · show 2 ≤ (agentLoopAux env llm (fuel + 1 + 1)
        (hist ++ [Msg.human u])).calls
    rw [hstep]
    have := agentLoopAux_calls_pos env llm fuel
      (((hist ++ [Msg.human u]) ++ [Msg.ai resp]) ++
        (runBatch env resp.tool_calls).msgs)
    show 2 ≤ (agentLoopAux env llm (fuel + 1) _).calls + 1
    omega

/-- Unfolding the loop one iteration at a response without tool calls: the
loop appends the response, emits its non-empty content as the only chunk of
the step (none when empty), and terminates. -/
theorem agentLoopAux_plainStep (env : ToolEnv)
    (llm : List Msg → Except String ModelResponse) (fuel : Nat)
    (hist : List Msg) (resp : ModelResponse)
    (hr : llm hist = Except.ok resp) (hc : resp.tool_calls = []) :
    agentLoopAux env llm (fuel + 1) hist =
      ⟨hist ++ [Msg.ai resp],
        if resp.content != "" then [resp.content] else [],
        1, TurnOutcome.done resp⟩ := by
  simp [agentLoopAux, hr, hc]

/-! ## Claim C4: tool executor failures and the loop -/

/-- C4 counterexample: the claim says that for EVERY input, invoking a
registered tool never raises outward and the loop proceeds to a subsequent
model invocation. But for arguments that fail the tool's input-schema
validation, .invoke raises before the executor body runs (src/main.py:237
and 239) and the turn-level except catches it (src/main.py:248): with a
schema-invalid web_search call the turn aborts after a single model
invocation, with no subsequent one. -/
theorem c4_counterexample :
    invokeTool envC "web_search" (ToolArgs.email "a" "b" "c")
      = Except.error (validationMsg "web_search") ∧
    (processAgentTurn envC invalidWSLLM 2 [Msg.system "p"]
        "find hours").outcome
      = TurnOutcome.aborted (validationMsg "web_search") ∧
    (processAgentTurn envC invalidWSLLM 2 [Msg.system "p"]
        "find hours").calls = 1 := by
  refine ⟨rfl, rfl, rfl⟩

/-- C4 amended: the EXECUTOR BODIES of both registered tools never raise --
an exception anywhere in send_email's try-block, a non-535 authentication
error it re-raises, and any exception in web_search are each converted to
the descriptive result string (parts 1-3); and for every model response
whose tool calls all pass their tools' argument validation, the Agent Loop
records one tool-result per call carrying the invocation's string and makes
a subsequent model invocation instead of aborting the turn (part 4; the
recorded observation is the executor's result, parts 5-6). For arguments
failing validation, .invoke raises before the executor body and the turn
aborts. -/
theorem c4_executors_amended :
    (∀ (sender password : Option String) (e recipient subject body : String),
      truthy sender = true → truthy password = true →
      (send_email sender password (SmtpOutcome.otherExn e)
          recipient subject body).fst = "Failed to send email: " ++ e) ∧
    (∀ (sender password : Option String) (code : Nat)
        (e recipient subject body : String),
      truthy sender = true → truthy password = true → code ≠ 535 →
      (send_email sender password (SmtpOutcome.authFail code e)
          recipient subject body).fst = "Failed to send email: " ++ e) ∧
    (∀ q e : String, (web_search q (SearchOutcome.exn e)).fst
        = "Search failed due to connectivity issues. Please try again later.") ∧
    (∀ (env : ToolEnv) (llm : List Msg → Except String ModelResponse)
        (fuel : Nat) (hist : List Msg) (u : String) (resp : ModelResponse),
      llm (hist ++ [Msg.human u]) = Except.ok resp →
      resp.tool_calls ≠ [] →
      (∀ c ∈ resp.tool_calls, invokeOk env c = true) →
      (processAgentTurn env llm (fuel + 2) hist u).hist.take
          (hist.length + 2 + resp.tool_calls.length)
        = (hist ++ [Msg.human u, Msg.ai resp]) ++
            resp.tool_calls.map (fun c =>
              Msg.toolMsg (obsOf env c) c.id) ∧
      2 ≤ (processAgentTurn env llm (fuel + 2) hist u).calls) ∧
    (∀ (env : ToolEnv) (cid recipient subject body : String),
      obsOf env ⟨cid, "send_email", ToolArgs.email recipient subject body⟩
        = (send_email env.sender env.password env.smtp
            recipient subject body).fst) ∧
    (∀ (env : ToolEnv) (cid q : String),
      obsOf env ⟨cid, "web_search", ToolArgs.search q⟩
        = (web_search q env.search).fst) := by
  refine ⟨?_, ?_, ?_, ?_, ?_, ?_⟩
  · intro sender password e r s b h1 h2
    simp [send_email, sendEmailTry, h1, h2]
  · intro sender password code e r s b h1 h2 hcode
    simp [send_email, sendEmailTry, h1, h2, hcode]
  · intro q e; rfl
  · intro env llm fuel hist u resp hr hne hok
    exact processAgentTurn_batch_prefix env llm fuel hist u resp hr hne hok
  · intro env cid r s b; rfl
  · intro env cid q; rfl

/-- C4 witness: the failure branches at concrete inputs, and a concrete
one-batch turn (a valid web search that times out) whose failure string
enters the history as the call's tool-result before a second model
invocation. -/
theorem c4_witness :
    (send_email (some "support@example.com") (some "pw")
        (SmtpOutcome.otherExn "boom") "r@example.com" "s" "b").fst
      = "Failed to send email: " ++ "boom" ∧
    (send_email (some "support@example.com") (some "pw")
        (SmtpOutcome.authFail 534 "denied") "r@example.com" "s" "b").fst
      = "Failed to send email: " ++ "denied" ∧
    (web_search "hours" (SearchOutcome.exn "timeout")).fst
      = "Search failed due to connectivity issues. Please try again later." ∧
    ((processAgentTurn envC llmC4 2 [Msg.system "p"]
        "When are you open?").hist.take
        ([Msg.system "p"].length + 2 + respC4.tool_calls.length)
      = ([Msg.system "p"] ++
          [Msg.human "When are you open?", Msg.ai respC4]) ++
          respC4.tool_calls.map (fun c =>
            Msg.toolMsg (obsOf envC c) c.id) ∧
      2 ≤ (processAgentTurn envC llmC4 2 [Msg.system "p"]
        "When are you open?").calls) :=
  ⟨c4_executors_amended.1 _ _ "boom" _ _ _ (by decide) (by decide),
   c4_executors_amended.2.1 _ _ 534 "denied" _ _ _ (by decide) (by decide)
     (by decide),
   c4_executors_amended.2.2.1 "hours" "timeout",
   c4_executors_amended.2.2.2.1 envC llmC4 0 [Msg.system "p"]
     "When are you open?" respC4 rfl (by decide) (by decide)⟩

/-! ## Claim C5: a response without tool calls ends the turn -/

/-- C5: when a model response carries no tool calls, the loop emits exactly
one spoken-text chunk with that response's text if the text is non-empty and
zero chunks if it is empty, appends the response to the history, and
terminates; and in the scenario of one successful send_email round followed
by the plain closing response, the turn's chunks are exactly the
acknowledgment followed by the closing text. -/
theorem c5_plain_response_single_chunk :
    (∀ (env : ToolEnv) (llm : List Msg → Except String ModelResponse)
        (fuel : Nat) (hist : List Msg) (resp : ModelResponse),
      llm hist = Except.ok resp → resp.tool_calls = [] →
      agentLoopAux env llm (fuel + 1) hist =
        ⟨hist ++ [Msg.ai resp],
          if resp.content != "" then [resp.content] else [],
          1, TurnOutcome.done resp⟩) ∧
    (∀ (env : ToolEnv) (fuel : Nat) (hist : List Msg) (u : String),
      (processAgentTurn env scenarioLLM (fuel + 2) hist u).chunks =
        ["Certainly, I'll send that email for you now.",
          "Done, I've sent that email."]) := by
  constructor
  · exact fun env llm fuel hist resp hr hc =>
      agentLoopAux_plainStep env llm fuel hist resp hr hc
  · intro env fuel hist u
    have h1 : scenarioLLM (hist ++ [Msg.human u]) = Except.ok scenarioResp1 := by
      simp [scenarioLLM]
    have hne2 : scenarioResp1.tool_calls.isEmpty = false := rfl
    have herr : (runBatch env scenarioResp1.tool_calls).err = none := rfl
    show (agentLoopAux env scenarioLLM (fuel + 1 + 1)
      (hist ++ [Msg.human u])).chunks = _
    rw [agentLoopAux_toolStep_ok env scenarioLLM (fuel + 1)
      (hist ++ [Msg.human u]) scenarioResp1 h1 hne2 herr]
    have hmsgs : (runBatch env scenarioResp1.tool_calls).msgs
        = [Msg.toolMsg ((send_email env.sender env.password env.smtp
            "bob@example.com" "hi" "hi").fst) "call_1"] := rfl
    have h2 : scenarioLLM (((hist ++ [Msg.human u]) ++
          [Msg.ai scenarioResp1]) ++
          (runBatch env scenarioResp1.tool_calls).msgs)
        = Except.ok scenarioResp2 := by
      rw [hmsgs]
      simp [scenarioLLM]
    rw [agentLoopAux_plainStep env scenarioLLM fuel _ scenarioResp2 h2 rfl]
    rfl

/-- C5 witness: the terminal step at a concrete plain response, and the
scenario turn from a concrete history. -/
theorem c5_witness :
    agentLoopAux envC plainLLM 1 [Msg.system "p"] =
      ⟨[Msg.system "p", Msg.ai ⟨"Hello, how can I help you today?", []⟩],
        ["Hello, how can I help you today?"], 1,
        TurnOutcome.done ⟨"Hello, how can I help you today?", []⟩⟩ ∧
    (processAgentTurn envC scenarioLLM 2 []
        "Send an email to bob@example.com saying hi").chunks =
      ["Certainly, I'll send that email for you now.",
        "Done, I've sent that email."] :=
  by
  refine ⟨?_, c5_plain_response_single_chunk.2 envC 0 []
    "Send an email to bob@example.com saying hi"⟩
  have h := c5_plain_response_single_chunk.1 envC plainLLM 0
    [Msg.system "p"] ⟨"Hello, how can I help you today?", []⟩ rfl rfl
  simpa using h

/-! ## Claim C6: termination of the while-loop -/

/-- A model that answers every invocation with a tool call drives the
source's unbounded while-loop forever: no fuel reaches the break. -/
theorem alwaysTool_fuelOut :
    ∀ (fuel : Nat) (hist : List Msg),
      (agentLoopAux envC alwaysToolLLM fuel hist).outcome
        = TurnOutcome.fuelOut := by
  intro fuel
  induction fuel with
  | zero => intro hist; rfl
  | succ fuel ih =>
    intro hist
    rw [agentLoopAux_toolStep_ok envC alwaysToolLLM fuel hist respLoop
      rfl rfl rfl]
    exact ih _

/-- C6 counterexample: the claim asserts that every turn's while-loop
terminates after finitely many iterations. The source loop (while True,
src/main.py:209) has no bound: with a model collaborator that returns a
tool-call batch on every invocation, no finite number of iterations reaches
the break, so the turn never terminates. -/
theorem c6_counterexample :
    ¬ TurnTerminates envC alwaysToolLLM [Msg.system "p", Msg.human "hello"] := by
  rintro ⟨fuel, resp, h⟩
  rw [alwaysTool_fuelOut] at h
  exact TurnOutcome.noConfusion h

/-- C6 amended: the loop reaches its break exactly when the model stops
requesting tools (and nothing aborts first); whenever every invocation
succeeds, every requested tool call passes its tool's argument validation
(so no batch aborts the turn), and the model returns a response without
tool calls once the history is long enough (it grows every iteration), the
turn terminates at the break. The code itself has no iteration bound, and a
model that requests tools forever loops forever. -/
theorem c6_loop_terminates_amended (env : ToolEnv)
    (llm : List Msg → Except String ModelResponse) (hist : List Msg) (n : Nat)
    (hok : ∀ h, ∃ r, llm h = Except.ok r)
    (hwf : ∀ h resp, llm h = Except.ok resp →
      ∀ c ∈ resp.tool_calls, invokeOk env c = true)
    (hplain : ∀ h : List Msg, n ≤ h.length → ∃ r,
      llm h = Except.ok r ∧ r.tool_calls = []) :
    TurnTerminates env llm hist := by
  suffices key : ∀ (f : Nat) (h : List Msg), n ≤ h.length + f →
      ∃ r, (agentLoopAux env llm (f + 1) h).outcome = TurnOutcome.done r by
    obtain ⟨r, hr⟩ := key n hist (by omega)
    exact ⟨n + 1, r, hr⟩
  intro f
  induction f with
  | zero =>
    intro h hn
    obtain ⟨r, hr, hc⟩ := hplain h (by omega)
    exact ⟨r, by rw [agentLoopAux_plainStep env llm 0 h r hr hc]⟩
  | succ f ihf =>
    intro h hn
    by_cases hnh : n ≤ h.length
    · obtain ⟨r, hr, hc⟩ := hplain h hnh
      exact ⟨r, by rw [agentLoopAux_plainStep env llm (f + 1) h r hr hc]⟩
    · obtain ⟨r, hr⟩ := hok h
      by_cases hc : r.tool_calls.isEmpty
      · have hc2 : r.tool_calls = [] := by
          cases hcl : r.tool_calls with
          | nil => rfl
          | cons a l => rw [hcl] at hc; exact absurd hc (by simp)
        exact ⟨r, by rw [agentLoopAux_plainStep env llm (f + 1) h r hr hc2]⟩
      · have hc2 : r.tool_calls.isEmpty = false := eq_false_of_ne_true hc
        have hlen : 1 ≤ r.tool_calls.length := by
          cases hcl : r.tool_calls with
          | nil => rw [hcl] at hc2; exact absurd hc2 (by decide)
          | cons a l => simp
        have hrb := runBatch_ok env r.tool_calls (hwf h r hr)
        have herr : (runBatch env r.tool_calls).err = none := by rw [hrb]
        have hmlen : (runBatch env r.tool_calls).msgs.length
            = r.tool_calls.length := by
          rw [hrb]
          exact List.length_map _ _
        obtain ⟨r2, hr2⟩ := ihf ((h ++ [Msg.ai r]) ++
          (runBatch env r.tool_calls).msgs)
          (by simp [List.length_append]; omega)
        refine ⟨r2, ?_⟩
        rw [agentLoopAux_toolStep_ok env llm (f + 1) h r hr hc2 herr]
        exact hr2

/-- C6 amended witness: a model that always answers plainly terminates the
turn. -/
theorem c6_witness : TurnTerminates envC plainLLM [Msg.system "p"] := by
  refine c6_loop_terminates_amended envC plainLLM [Msg.system "p"] 0
    ?_ ?_ ?_
  · exact fun _ => ⟨⟨"Hello, how can I help you today?", []⟩, rfl⟩
  · intro h resp hr c hc
    injection hr with h2
    subst h2
    simp at hc
  · exact fun _ _ => ⟨⟨"Hello, how can I help you today?", []⟩, rfl, rfl⟩

/-! ## Claim C8: tool calls naming no registered tool -/

/-- C8 counterexample: the claim asserts that a tool call whose name matches
no registered tool is answered with a descriptive error message as its
tool-result. In the source the observation variable keeps its initial value,
the empty string (src/main.py:235), so the tool-result recorded for the
unregistered call make_coffee has empty content -- not a descriptive error
message -- although the turn does proceed to the next model invocation and
finishes. -/
theorem c8_counterexample :
    (processAgentTurn envC unknownToolLLM 2 [Msg.system "p"]
        "Make me a coffee").hist
      = [Msg.system "p", Msg.human "Make me a coffee", Msg.ai respUnknown,
          Msg.toolMsg "" "call_1",
          Msg.ai ⟨"Sorry, I cannot do that.", []⟩] ∧
    (processAgentTurn envC unknownToolLLM 2 [Msg.system "p"]
        "Make me a coffee").outcome
      = TurnOutcome.done ⟨"Sorry, I cannot do that.", []⟩ := by
  constructor <;> rfl

/-- Indexing into the middle block of a three-block append. -/
theorem get?_append_mid (A B C : List Msg) (k : Nat) (hk : k < B.length) :
    ((A ++ B) ++ C).get? (A.length + k) = B.get? k := by
  have h1 : (A ++ B).get? (A.length + k) = B.get? k := by
    rw [List.get?_append_right (by omega)]
    congr 1
    omega
  rw [List.get?_append (by simp [List.length_append]; omega)]
  exact h1

/-- C8 amended: for every model response containing a tool call whose name
matches no registered tool, provided the calls before it in the batch pass
their tools' argument validation (so the loop reaches it -- an earlier
schema-invalid registered call would abort the turn first), the loop
appends a tool-result keyed to that call's identifier whose content is the
empty string (the observation's initial value, not a descriptive error
message); and when every call of the batch passes validation, the turn
proceeds to a subsequent model invocation rather than crashing. -/
theorem c8_unknown_tool_amended (env : ToolEnv)
    (llm : List Msg → Except String ModelResponse) (fuel : Nat)
    (hist : List Msg) (u cid nm : String) (ar : ToolArgs)
    (resp : ModelResponse) (pre post : List ToolCall)
    (hr : llm (hist ++ [Msg.human u]) = Except.ok resp)
    (hcalls : resp.tool_calls = pre ++ ⟨cid, nm, ar⟩ :: post)
    (hn1 : nm ≠ "send_email") (hn2 : nm ≠ "web_search")
    (hpre : ∀ c ∈ pre, invokeOk env c = true) :
    (processAgentTurn env llm (fuel + 2) hist u).hist.get?
        (hist.length + 2 + pre.length)
      = some (Msg.toolMsg "" cid) ∧
    ((∀ c ∈ resp.tool_calls, invokeOk env c = true) →
      2 ≤ (processAgentTurn env llm (fuel + 2) hist u).calls) := by
  have hbad : invokeTool env nm ar = Except.ok "" := by
    simp [invokeTool, hn1, hn2]
  have hne2 : resp.tool_calls.isEmpty = false := by
    rw [hcalls]
    cases pre with
    | nil => rfl
    | cons a l => rfl
  have hb2 : runBatch env (⟨cid, nm, ar⟩ :: post) =
      ⟨ackChunk nm ++ (runBatch env post).chunks,
        Msg.toolMsg "" cid :: (runBatch env post).msgs,
        (runBatch env post).err⟩ := by
    simp [runBatch, hbad]
  have hrb := runBatch_append_ok env (⟨cid, nm, ar⟩ :: post) pre hpre
  have hmsgs : (runBatch env resp.tool_calls).msgs
      = (pre.map fun c => Msg.toolMsg (obsOf env c) c.id) ++
        (Msg.toolMsg "" cid :: (runBatch env post).msgs) := by
    rw [hcalls, hrb, hb2]
  constructor
  · obtain ⟨delta, hdelta⟩ := agentLoopAux_toolStep_hist env llm (fuel + 1)
      (hist ++ [Msg.human u]) resp hr hne2
    show (agentLoopAux env llm (fuel + 1 + 1)
      (hist ++ [Msg.human u])).hist.get? (hist.length + 2 + pre.length) = _
    rw [hdelta, hmsgs]
    have hmaplen : (pre.map fun c =>
        Msg.toolMsg (obsOf env c) c.id).length = pre.length :=
      List.length_map _ _
    have hidx : hist.length + 2 + pre.length
        = ((hist ++ [Msg.human u]) ++ [Msg.ai resp]).length + pre.length := by
      simp [List.length_append]
    rw [hidx, get?_append_mid _ _ _ pre.length
      (by simp [List.length_append, hmaplen])]
    rw [List.get?_append_right (by rw [hmaplen])]
    rw [hmaplen]
    simp
  · intro hok
    have herr : (runBatch env resp.tool_calls).err = none := by
      rw [runBatch_ok env resp.tool_calls hok]
    show 2 ≤ (agentLoopAux env llm (fuel + 1 + 1)
      (hist ++ [Msg.human u])).calls
    rw [agentLoopAux_toolStep_ok env llm (fuel + 1)
      (hist ++ [Msg.human u]) resp hr hne2 herr]
    have := agentLoopAux_calls_pos env llm fuel
      (((hist ++ [Msg.human u]) ++ [Msg.ai resp]) ++
        (runBatch env resp.tool_calls).msgs)
    show 2 ≤ (agentLoopAux env llm (fuel + 1) _).calls + 1
    omega

/-- C8 amended witness: a concrete batch holding a valid web_search call
followed by an unregistered make_coffee call: the unregistered call's
tool-result is the empty string and the model is invoked again. -/
theorem c8_witness :
    (processAgentTurn envC mixedLLM 2 [Msg.system "q"]
        "Tea please").hist.get? 4
      = some (Msg.toolMsg "" "c2") ∧
    2 ≤ (processAgentTurn envC mixedLLM 2 [Msg.system "q"]
        "Tea please").calls := by
  have h := c8_unknown_tool_amended envC mixedLLM 0 [Msg.system "q"]
    "Tea please" "c2" "make_coffee" ToolArgs.other respMixed
    [⟨"c1", "web_search", ToolArgs.search "x"⟩] [] rfl rfl
    (by decide) (by decide) (by decide)
  refine ⟨?_, h.2 (by decide)⟩
  simpa using h.1

/-- C10 witness: the theorem at a concrete unconfigured sender, with two
distinct SMTP oracles. -/
theorem c10_witness :
    send_email none (some "pw") SmtpOutcome.sendOk "bob@example.com" "s" "b" =
      ("Error: Email credentials not configured on server.",
        [Effect.logWarning "Email credentials not configured."]) ∧
    send_email none (some "pw") SmtpOutcome.sendOk "bob@example.com" "s" "b" =
      send_email none (some "pw") (SmtpOutcome.otherExn "boom") "bob@example.com" "s" "b" :=
  c10_send_email_unconfigured none (some "pw") SmtpOutcome.sendOk
    (SmtpOutcome.otherExn "boom") "bob@example.com" "s" "b" (Or.inl rfl)

/-! ## Claim C7: the speech output sink -/

/-- C7: for every call to handle_tts, empty text sends nothing and returns
normally; a 200 synthesis response yields exactly one outbound media frame
carrying the session's streamSid and the base64 payload of the returned
audio bytes; a non-200 response or a raised exception yields no frame, only
a log record, and the call returns normally (the embedded function is
total); and a failed chunk leaves the frames of subsequent chunks
unchanged. -/
theorem c7_speech_sink :
    (∀ (sid : String) (outc : TtsOutcome),
      handle_tts "" sid outc = ([], [])) ∧
    (∀ (text sid : String) (content : List Nat), text ≠ "" →
      (handle_tts text sid (TtsOutcome.response 200 content)).fst
        = [{ event := "media",
             streamSid := sid,
             payload := b64encode content }]) ∧
    (∀ (text sid : String) (status : Nat) (content : List Nat),
      text ≠ "" → status ≠ 200 →
      handle_tts text sid (TtsOutcome.response status content)
        = ([], [Effect.logInfo ("TTS: " ++ text),
            Effect.logError ("TTS Error: " ++ toString status)])) ∧
    (∀ (text sid e : String), text ≠ "" →
      handle_tts text sid (TtsOutcome.exn e)
        = ([], [Effect.logInfo ("TTS: " ++ text),
            Effect.logError ("TTS Exception: " ++ e)])) ∧
    (∀ (sid text e : String) (rest : List (String × TtsOutcome)),
      speakAll sid ((text, TtsOutcome.exn e) :: rest) = speakAll sid rest) ∧
    (∀ (sid text : String) (status : Nat) (content : List Nat)
        (rest : List (String × TtsOutcome)), status ≠ 200 →
      speakAll sid ((text, TtsOutcome.response status content) :: rest)
        = speakAll sid rest) := by
  refine ⟨?_, ?_, ?_, ?_, ?_, ?_⟩
  · intro sid outc; simp [handle_tts]
  · intro text sid content ht; simp [handle_tts, ht]
  · intro text sid status content ht hs; simp [handle_tts, ht, hs]
  · intro text sid e ht; simp [handle_tts, ht]
  · intro sid text e rest
    by_cases ht : text = "" <;> simp [speakAll, handle_tts, ht]
  · intro sid text status content rest hs
    by_cases ht : text = "" <;> simp [speakAll, handle_tts, ht, hs]

/-- C7 witness: the sink at concrete inputs (the bytes 104, 105 encode to
the base64 payload of the frame; the failing 503 and exception chunks drop
out of the frame sequence). -/
theorem c7_witness :
    handle_tts "" "MZ" (TtsOutcome.exn "x") = ([], []) ∧
    (handle_tts "Hi" "MZ" (TtsOutcome.response 200 [104, 105])).fst
      = [{ event := "media",
           streamSid := "MZ",
           payload := b64encode [104, 105] }] ∧
    handle_tts "Hi" "MZ" (TtsOutcome.response 500 [])
      = ([], [Effect.logInfo ("TTS: " ++ "Hi"),
          Effect.logError ("TTS Error: " ++ toString 500)]) ∧
    handle_tts "Hi" "MZ" (TtsOutcome.exn "boom")
      = ([], [Effect.logInfo ("TTS: " ++ "Hi"),
          Effect.logError ("TTS Exception: " ++ "boom")]) ∧
    speakAll "MZ" [("Hi", TtsOutcome.exn "boom"),
        ("Bye", TtsOutcome.response 200 [104])]
      = speakAll "MZ" [("Bye", TtsOutcome.response 200 [104])] ∧
    speakAll "MZ" [("Hi", TtsOutcome.response 503 []),
        ("Bye", TtsOutcome.response 200 [104])]
      = speakAll "MZ" [("Bye", TtsOutcome.response 200 [104])] :=
  ⟨c7_speech_sink.1 "MZ" (TtsOutcome.exn "x"),
   c7_speech_sink.2.1 "Hi" "MZ" [104, 105] (by decide),
   c7_speech_sink.2.2.1 "Hi" "MZ" 500 [] (by decide) (by decide),
   c7_speech_sink.2.2.2.1 "Hi" "MZ" "boom" (by decide),
   c7_speech_sink.2.2.2.2.1 "MZ" "Hi" "boom" _,
   c7_speech_sink.2.2.2.2.2 "MZ" "Hi" 503 [] _ (by decide)⟩

/-! ## Claim C1: mutual exclusion of turn bodies -/

/-- Replaying an append whose first part replays successfully. -/
theorem scanTrace_append_some (l2 : List Event) :
    ∀ (l1 : List Event) (h h1 : Option Nat), scanTrace h l1 = some h1 →
      scanTrace h (l1 ++ l2) = scanTrace h1 l2 := by
  intro l1
  induction l1 with
  | nil =>
    intro h h1 hpre
    cases hpre
    rfl
  | cons e rest ih =>
    intro h h1 hpre
    simp only [List.cons_append, scanTrace] at hpre ⊢
    cases hse : scanStep h e with
    | none =>
      simp only [hse] at hpre
      exact Option.noConfusion hpre
    | some h2 =>
      simp only [hse] at hpre ⊢
      exact ih h2 h1 hpre

/-- Replaying an append whose first part violates the discipline. -/
theorem scanTrace_append_none (l2 : List Event) :
    ∀ (l1 : List Event) (h : Option Nat), scanTrace h l1 = none →
      scanTrace h (l1 ++ l2) = none := by
  intro l1
  induction l1 with
  | nil => intro h hpre; exact absurd hpre (by simp [scanTrace])
  | cons e rest ih =>
    intro h hpre
    simp only [List.cons_append, scanTrace] at hpre ⊢
    cases hse : scanStep h e with
    | none => simp only [hse]
    | some h2 =>
      simp only [hse] at hpre ⊢
      exact ih h2 hpre

/-- Every reachable sequencer state has a trace that obeys the lock
discipline and replays to the state's current holder. -/
theorem seqReach_scan (s : SeqState) (hs : SeqReach s) :
    scanTrace none s.trace = some s.lockHolder := by
  induction hs with
  | init => rfl
  | step s1 s2 hs1 hstep ih =>
    cases hstep with
    | acquire t h =>
      show scanTrace none (s1.trace ++ [Event.acquire t]) = some (some t)
      rw [scanTrace_append_some [Event.acquire t] s1.trace none s1.lockHolder ih]
      simp [scanTrace, scanStep, h]
    | body t op h =>
      show scanTrace none (s1.trace ++ [Event.body t op]) = some (some t)
      rw [scanTrace_append_some [Event.body t op] s1.trace none s1.lockHolder ih]
      simp [scanTrace, scanStep, h]
    | release t h =>
      show scanTrace none (s1.trace ++ [Event.release t]) = some none
      rw [scanTrace_append_some [Event.release t] s1.trace none s1.lockHolder ih]
      simp [scanTrace, scanStep, h]

/-- In a discipline-obeying trace, every prefix also replays. -/
theorem scanTrace_prefix_total (l : List Event) (hEnd : Option Nat)
    (hscan : scanTrace none l = some hEnd) (j : Nat) :
    ∃ h1, scanTrace none (l.take j) = some h1 := by
  cases hpre : scanTrace none (l.take j) with
  | none =>
    have hnone := scanTrace_append_none (l.drop j) (l.take j) none hpre
    rw [List.take_append_drop] at hnone
    rw [hnone] at hscan
    exact absurd hscan (by simp)
  | some h1 => exact ⟨h1, rfl⟩

/-- A position holding some event is inside the list. -/
theorem get?_some_lt (l : List Event) (j : Nat) (e : Event)
    (hj : l.get? j = some e) : j < l.length := by
  by_contra hge
  push_neg at hge
  rw [List.get?_eq_none.2 hge] at hj
  exact Option.noConfusion hj

/-- In a discipline-obeying trace, every body event of a turn happens while
that turn holds the lock: the prefix before it replays to that holder. -/
theorem scanTrace_body_holder (l : List Event) (hEnd : Option Nat)
    (hscan : scanTrace none l = some hEnd)
    (j u : Nat) (op : BodyOp)
    (hj : l.get? j = some (Event.body u op)) :
    scanTrace none (l.take j) = some (some u) := by
  have hjlt : j < l.length := get?_some_lt l j _ hj
  have hdrop : l.drop j = Event.body u op :: l.drop (j + 1) := by
    rw [List.drop_eq_get_cons hjlt]
    have hg := List.get?_eq_get hjlt
    rw [hg] at hj
    rw [Option.some.inj hj]
  cases hpre : scanTrace none (l.take j) with
  | none =>
    have hnone := scanTrace_append_none (l.drop j) (l.take j) none hpre
    rw [List.take_append_drop] at hnone
    rw [hnone] at hscan
    exact absurd hscan (by simp)
  | some h1 =>
    have hrest := scanTrace_append_some (l.drop j) (l.take j) none h1 hpre
    rw [List.take_append_drop] at hrest
    rw [hrest, hdrop] at hscan
    by_cases hh : h1 = some u
    · rw [hh]
    · exfalso
      simp only [scanTrace, scanStep] at hscan
      rw [if_neg hh] at hscan
      simp at hscan

/-- In a discipline-obeying trace, once a turn holds the lock it keeps it
until its own release event. -/
theorem scanTrace_persist (l : List Event) (hEnd : Option Nat)
    (hscan : scanTrace none l = some hEnd) (t : Nat) (i : Nat) :
    ∀ k, i + k ≤ l.length →
      scanTrace none (l.take i) = some (some t) →
      (∀ m, i ≤ m → m < i + k → l.get? m ≠ some (Event.release t)) →
      scanTrace none (l.take (i + k)) = some (some t) := by
  intro k
  induction k with
  | zero => intro _ hi _; exact hi
  | succ k ih =>
    intro hlen hi hrel
    have hk : i + k < l.length := by omega
    have hmid : scanTrace none (l.take (i + k)) = some (some t) :=
      ih (by omega) hi (fun m hm1 hm2 => hrel m hm1 (by omega))
    cases he : l.get? (i + k) with
    | none =>
      have := List.get?_eq_none.1 he
      omega
    | some e =>
      have htake : l.take (i + k + 1) = l.take (i + k) ++ [e] := by
        rw [List.take_succ]
        congr 1
        rw [← List.get?_eq_getElem?, he]
        rfl
      obtain ⟨hAfter, hAfterEq⟩ :=
        scanTrace_prefix_total l hEnd hscan (i + k + 1)
      rw [htake,
        scanTrace_append_some [e] (l.take (i + k)) none (some t) hmid]
        at hAfterEq
      have hiadd : i + (k + 1) = i + k + 1 := by omega
      rw [hiadd, htake,
        scanTrace_append_some [e] (l.take (i + k)) none (some t) hmid]
      cases e with
      | acquire t2 =>
        exfalso
        simp [scanTrace, scanStep] at hAfterEq
      | body t2 op =>
        by_cases hb : (some t : Option Nat) = some t2
        · simp [scanTrace, scanStep, hb]
        · exfalso
          simp only [scanTrace, scanStep] at hAfterEq
          rw [if_neg hb] at hAfterEq
          simp at hAfterEq
      | release t2 =>
        exfalso
        by_cases hb : t2 = t
        · exact hrel (i + k) (by omega) (by omega) (by rw [he, hb])
        · have hb2 : ¬((some t : Option Nat) = some t2) := by
            intro hx
            exact hb (Option.some.inj hx).symm
          simp only [scanTrace, scanStep] at hAfterEq
          rw [if_neg hb2] at hAfterEq
          simp at hAfterEq

/-- C1: for every reachable state of the per-session sequencer and any two
distinct turns, (i) a body step of a turn happens only while that turn holds
the lock; (ii) if turn t1 holds the lock at some point of the trace, every
later body step of turn t2 -- every history mutation and every awaited audio
send of t2's locked section -- is separated from that point by t1's release
of the lock, so t2's locked body runs strictly after t1's turn (including
all its awaited audio sends, which precede the release in t1's section)
finishes; (iii) the locked bodies of two turns never interleave: between two
body steps of t1 with no release of t1 in between, there is no body step of
t2. -/
theorem c1_turn_mutual_exclusion (s : SeqState) (hreach : SeqReach s)
    (t1 t2 : Nat) (hne : t1 ≠ t2) :
    (∀ j op, s.trace.get? j = some (Event.body t2 op) →
      scanTrace none (s.trace.take j) = some (some t2)) ∧
    (∀ i j op2, i ≤ j →
      scanTrace none (s.trace.take i) = some (some t1) →
      s.trace.get? j = some (Event.body t2 op2) →
      ∃ m, i ≤ m ∧ m < j ∧ s.trace.get? m = some (Event.release t1)) ∧
    (∀ i k op1 op3, i < k →
      s.trace.get? i = some (Event.body t1 op1) →
      s.trace.get? k = some (Event.body t1 op3) →
      (∀ m, i < m → m < k → s.trace.get? m ≠ some (Event.release t1)) →
      ∀ j op2, i < j → j < k →
        s.trace.get? j ≠ some (Event.body t2 op2)) := by
  have hscan := seqReach_scan s hreach
  have hbody : ∀ j u op, s.trace.get? j = some (Event.body u op) →
      scanTrace none (s.trace.take j) = some (some u) :=
    fun j u op hj => scanTrace_body_holder s.trace s.lockHolder hscan j u op hj
  have hsep : ∀ i j op2, i ≤ j →
      scanTrace none (s.trace.take i) = some (some t1) →
      s.trace.get? j = some (Event.body t2 op2) →
      ∃ m, i ≤ m ∧ m < j ∧ s.trace.get? m = some (Event.release t1) := by
    intro i j op2 hij hi hj
    by_contra hcon
    push_neg at hcon
    have hjlt : j < s.trace.length := get?_some_lt s.trace j _ hj
    have hpersist := scanTrace_persist s.trace s.lockHolder hscan t1 i (j - i)
      (by omega) hi
      (fun m hm1 hm2 => by
        intro habs
        exact absurd habs (hcon m hm1 (by omega)))
    have hj2 := hbody j t2 op2 hj
    have hji : i + (j - i) = j := by omega
    rw [hji] at hpersist
    rw [hpersist] at hj2
    exact hne (Option.some.inj (Option.some.inj hj2))
  refine ⟨fun j op hj => hbody j t2 op hj, hsep, ?_⟩
  intro i k op1 op3 hik hi hk hrel j op2 hij hjk habs
  have hi1 : scanTrace none (s.trace.take (i + 1)) = some (some t1) := by
    have hholdi := hbody i t1 op1 hi
    have htake : s.trace.take (i + 1)
        = s.trace.take i ++ [Event.body t1 op1] := by
      rw [List.take_succ]
      congr 1
      rw [← List.get?_eq_getElem?, hi]
      rfl
    rw [htake,
      scanTrace_append_some [Event.body t1 op1] (s.trace.take i) none
        (some t1) hholdi]
    simp [scanTrace, scanStep]
  obtain ⟨m, hm1, hm2, hm3⟩ := hsep (i + 1) j op2 (by omega) hi1 habs
  exact hrel m (by omega) (by omega) hm3

/-- The concrete state stateW is reachable. -/
theorem stateW_reach : SeqReach stateW :=
  SeqReach.step _ _
    (SeqReach.step _ _
      (SeqReach.step _ _
        (SeqReach.step _ _
          (SeqReach.step _ _ SeqReach.init
            (SeqStep.acquire ⟨none, []⟩ 0 rfl))
          (SeqStep.body ⟨some 0, [Event.acquire 0]⟩ 0
            (BodyOp.appendMsg (Msg.human "hi")) rfl))
        (SeqStep.release ⟨some 0, [Event.acquire 0,
          Event.body 0 (BodyOp.appendMsg (Msg.human "hi"))]⟩ 0 rfl))
      (SeqStep.acquire ⟨none, [Event.acquire 0,
        Event.body 0 (BodyOp.appendMsg (Msg.human "hi")),
        Event.release 0]⟩ 1 rfl))
    (SeqStep.body ⟨some 1, [Event.acquire 0,
      Event.body 0 (BodyOp.appendMsg (Msg.human "hi")),
      Event.release 0, Event.acquire 1]⟩ 1
      (BodyOp.appendMsg (Msg.human "again")) rfl)

/-- C1 witness: on the concrete reachable trace traceW, turn 1's body step
(position 4) is separated from the point where turn 0 held the lock
(position 1) by turn 0's release. -/
theorem c1_witness :
    ∃ m, 1 ≤ m ∧ m < 4 ∧
      stateW.trace.get? m = some (Event.release 0) :=
  (c1_turn_mutual_exclusion stateW stateW_reach 0 1 (by decide)).2.1 1 4
    (BodyOp.appendMsg (Msg.human "again")) (by decide) (by decide) (by decide)

/-! ## Claim C9: exceptions under the lock -/

/-- C9: each exception source under the lock is caught by the turn-level
except and recorded as a logged turn-level failure value (the embedded turn
function is total: no exception propagates): a model-invocation failure
(part 1) and a tool-dispatch failure -- a raising invocation inside the
batch, which leaves the batch's partial tool results and the already spoken
acknowledgments (part 2; a send failure is caught inside handle_tts itself
and never reaches the turn level). The session runs one turn per submitted
utterance, so a failed turn never stops the turns after it (part 3); the
turn after an aborted turn runs on the history the aborted turn left
(part 4); and the erroring turn's critical section -- acquire, log the
failure, release -- is a valid lock run ending with the lock free, so no
exception path leaves the sequencer permanently locked (part 5). -/
theorem c9_lock_released_on_error :
    (∀ (env : ToolEnv) (fuel : Nat) (hist : List Msg) (u e : String),
      processAgentTurn env (failingLLM e) (fuel + 1) hist u =
        ⟨hist ++ [Msg.human u], [], 1, TurnOutcome.aborted e⟩ ∧
      turnLog (processAgentTurn env (failingLLM e) (fuel + 1) hist u).outcome
        = [Effect.logError ("Agent Logic Error: " ++ e)]) ∧
    (∀ (env : ToolEnv) (llm : List Msg → Except String ModelResponse)
        (fuel : Nat) (hist : List Msg) (u e : String) (resp : ModelResponse),
      llm (hist ++ [Msg.human u]) = Except.ok resp →
      (runBatch env resp.tool_calls).err = some e →
      processAgentTurn env llm (fuel + 1) hist u =
        ⟨((hist ++ [Msg.human u]) ++ [Msg.ai resp]) ++
            (runBatch env resp.tool_calls).msgs,
          (runBatch env resp.tool_calls).chunks, 1,
          TurnOutcome.aborted e⟩ ∧
      turnLog (TurnOutcome.aborted e)
        = [Effect.logError ("Agent Logic Error: " ++ e)]) ∧
    (∀ (env : ToolEnv) (hist : List Msg) (ins : List TurnInput),
      (sessionRun env hist ins).snd.length = ins.length) ∧
    (∀ (env : ToolEnv) (hist : List Msg) (e u : String) (fuel : Nat)
        (tin : TurnInput),
      sessionRun env hist [⟨failingLLM e, fuel + 1, u⟩, tin]
        = ((processAgentTurn env tin.llm tin.fuel
              (hist ++ [Msg.human u]) tin.text).hist,
           [TurnOutcome.aborted e,
            (processAgentTurn env tin.llm tin.fuel
              (hist ++ [Msg.human u]) tin.text).outcome])) ∧
    (∀ (t : Nat) (e : String),
      SeqReach ⟨none, [Event.acquire t,
        Event.body t (BodyOp.logTurnError ("Agent Logic Error: " ++ e)),
        Event.release t]⟩) := by
  refine ⟨?_, ?_, ?_, ?_, ?_⟩
  · intro env fuel hist u e
    constructor
    · simp [processAgentTurn, agentLoopAux, failingLLM]
    · simp [processAgentTurn, agentLoopAux, failingLLM, turnLog]
  · intro env llm fuel hist u e resp hr herr
    have hne2 : resp.tool_calls.isEmpty = false := by
      cases hcl : resp.tool_calls with
      | nil =>
        rw [hcl] at herr
        exact absurd herr (by simp [runBatch])
      | cons a l => rfl
    constructor
    · show agentLoopAux env llm (fuel + 1) (hist ++ [Msg.human u]) = _
      rw [agentLoopAux_toolStep_err env llm fuel
        (hist ++ [Msg.human u]) resp e hr hne2 herr]
    · rfl
  · intro env hist ins
    induction ins generalizing hist with
    | nil => rfl
    | cons tin rest ih =>
      simp only [sessionRun]
      cases hrec : sessionRun env
          (processAgentTurn env tin.llm tin.fuel hist tin.text).hist rest with
      | mk h outs =>
        have := ih (processAgentTurn env tin.llm tin.fuel hist tin.text).hist
        rw [hrec] at this
        simpa using this
  · intro env hist e u fuel tin
    simp [sessionRun, processAgentTurn, agentLoopAux, failingLLM]
  · intro t e
    exact SeqReach.step _ _
      (SeqReach.step _ _
        (SeqReach.step _ _ SeqReach.init
          (SeqStep.acquire ⟨none, []⟩ t rfl))
        (SeqStep.body ⟨some t, [Event.acquire t]⟩ t
          (BodyOp.logTurnError ("Agent Logic Error: " ++ e)) rfl))
      (SeqStep.release ⟨some t, [Event.acquire t,
        Event.body t (BodyOp.logTurnError ("Agent Logic Error: " ++ e))]⟩ t rfl)

/-- C9 witness: a concrete turn whose tool dispatch raises (a schema-invalid
send_email call): the already spoken acknowledgment remains, the turn is a
caught and logged turn-level failure, and nothing propagates. -/
theorem c9_witness :
    processAgentTurn envC invalidLLM 1 [Msg.system "w"] "send it" =
      ⟨[Msg.system "w", Msg.human "send it", Msg.ai respInvalid],
        ["Certainly, I'll send that email for you now."], 1,
        TurnOutcome.aborted (validationMsg "send_email")⟩ ∧
    turnLog (TurnOutcome.aborted (validationMsg "send_email"))
      = [Effect.logError ("Agent Logic Error: " ++ validationMsg "send_email")] := by
  have h := c9_lock_released_on_error.2.1 envC invalidLLM 0 [Msg.system "w"]
    "send it" (validationMsg "send_email") respInvalid rfl rfl
  exact ⟨h.1.trans rfl, h.2⟩

end VoiceAgent
